import Mathlib

/-!
Shallow embedding of `src/app.py` (turnos_riego): the hour-label parser
`parse_hora`, the loader `cargar_datos`, the filter pipeline, the next-turn
view and the month-calendar day cells, together with theorems settling the
spec claims about them.

Machine model notes:
* Python strings are modelled through explicit ASCII helpers (`pyStrip`,
  `pyUpper`, `pySplit`, `pyInt`); unicode digits and underscore separators
  accepted by Python `int` are outside the modelled token language.
* Timezone-aware instants are modelled as seconds on a fixed-offset timeline
  (`instant`); only differences and comparisons of instants occur in the
  program, so the constant UTC offset cancels everywhere.
-/

namespace Turnos

/-- ASCII whitespace, as used by Python `str.strip` / `str.split`. -/
def isSpace (c : Char) : Bool :=
  c = ' ' || c = '\t' || c = '\n' || c = '\r' || c = '\x0b' || c = '\x0c'

/-- Python `str.strip()`: drop leading and trailing whitespace. -/
def pyStrip (s : String) : String :=
  String.mk (((s.toList.dropWhile isSpace).reverse.dropWhile isSpace).reverse)

/-- Python `str.upper()` on ASCII data. -/
def pyUpper (s : String) : String :=
  String.mk (s.toList.map Char.toUpper)

/-- Accumulator-based splitter behind `pySplit`; `cur` holds the current token
reversed. -/
def splitWsAux : List Char → List Char → List String
  | cur, [] => if cur.isEmpty then [] else [String.mk cur.reverse]
  | cur, c :: cs =>
    if isSpace c then
      if cur.isEmpty then splitWsAux [] cs
      else String.mk cur.reverse :: splitWsAux [] cs
    else splitWsAux (c :: cur) cs

/-- Python `str.split()` with no argument: split on whitespace runs, never
producing empty tokens. -/
def pySplit (s : String) : List String :=
  splitWsAux [] s.toList

/-- Decimal value of a digit string, `none` as soon as a non-digit appears.
On the empty list it returns `some 0`; callers must rule that case out. -/
def digitsVal (l : List Char) : Option Nat :=
  l.foldl
    (fun acc c =>
      match acc with
      | none => none
      | some n => if c.isDigit then some (n * 10 + (c.toNat - 48)) else none)
    (some 0)

/-- Python `int(token)` on a whitespace-free token: optional sign followed by
decimal digits (underscore separators and unicode digits are not modelled). -/
def pyInt (s : String) : Option Int :=
  match s.toList with
  | [] => none
  | '+' :: rest => if rest.isEmpty then none else (digitsVal rest).map Int.ofNat
  | '-' :: rest => if rest.isEmpty then none else (digitsVal rest).map (fun n => -(n : Int))
  | l => (digitsVal l).map Int.ofNat

/-- Python `datetime.time` value (the program always passes minute 0). -/
structure PyTime where
  hour : Nat
  minute : Nat
deriving DecidableEq

/-- Python `time(hour=h, minute=m)`: raises `ValueError` unless
`0 ≤ h ≤ 23`. -/
def mkTime (hour : Int) (minute : Nat) : Except String PyTime :=
  if 0 ≤ hour ∧ hour ≤ 23 then .ok ⟨hour.toNat, minute⟩
  else .error "hour must be in 0..23"

/-- Embedding of `parse_hora` (src/app.py lines 33-52): strip and uppercase
the label, split on whitespace, demand exactly two tokens, parse the hour
with `int`, then apply the AM/PM adjustment and build a `time`. -/
def parse_hora (h : String) : Except String PyTime :=
  let s := pyUpper (pyStrip h)
  match pySplit s with
  | [p0, p1] =>
    match pyInt p0 with
    | none => .error ("invalid literal for int: " ++ p0)
    | some hour =>
      if p1 = "AM" then
        mkTime (if hour = 12 then 0 else hour) 0
      else if p1 = "PM" then
        mkTime (if hour ≠ 12 then hour + 12 else hour) 0
      else .error ("AM/PM no reconocido: " ++ h)
  | _ => .error ("Formato de HORA no soportado: " ++ h)

/-- Calendar date (proleptic Gregorian, year ≥ 0). -/
structure Date where
  year : Nat
  month : Nat
  day : Nat
deriving DecidableEq

/-- Days since 0000-03-01 in the civil calendar (the standard
days-from-civil computation, specialised to non-negative years). -/
def Date.toDays (d : Date) : Nat :=
  let y := if d.month ≤ 2 then d.year - 1 else d.year
  let era := y / 400
  let yoe := y % 400
  let mp := (d.month + 9) % 12
  let doy := (153 * mp + 2) / 5 + (d.day - 1)
  let doe := yoe * 365 + yoe / 4 - yoe / 100 + doy
  era * 146097 + doe

/-- Embedding of `datetime.combine(fecha, hora_t, tzinfo=TZ)`: seconds on a
fixed-offset timeline.  The program only compares and subtracts instants that
carry the same timezone, so the constant offset cancels. -/
def instant (d : Date) (t : PyTime) : Nat :=
  d.toDays * 86400 + t.hour * 3600 + t.minute * 60

/-- Two-digit zero-padded decimal rendering (strftime `%d`, `%m`, `%y`). -/
def pad2 (n : Nat) : String :=
  if n < 10 then "0" ++ toString n else toString n

/-- Four-digit zero-padded decimal rendering (strftime `%Y` for the years in
scope). -/
def pad4 (n : Nat) : String :=
  if n < 10 then "000" ++ toString n
  else if n < 100 then "00" ++ toString n
  else if n < 1000 then "0" ++ toString n
  else toString n

/-- `FECHA.dt.strftime("%m/%Y")` (the `MONTH_LABEL` column, src/app.py
line 216). -/
def monthLabel (d : Date) : String :=
  pad2 d.month ++ "/" ++ pad4 d.year

/-- `FECHA.dt.strftime("%d/%m/%y")` (the `FECHA_STR` column). -/
def fechaStr (d : Date) : String :=
  pad2 d.day ++ "/" ++ pad2 d.month ++ "/" ++ pad2 (d.year % 100)

/-- One raw spreadsheet cell as seen by pandas: missing (`NaN`), textual, or
already a date value. -/
inductive Cell where
  | na : Cell
  | str : String → Cell
  | date : Date → Cell
deriving DecidableEq

/-- Whether a cell is pandas-missing (`NaN`), as tested by `dropna`. -/
def isNa : Cell → Bool
  | .na => true
  | _ => false

/-- Digit-string to number, rejecting the empty string. -/
def digitsOf (s : String) : Option Nat :=
  if s.isEmpty then none else digitsVal s.toList

/-- String-to-date coercion used by `pd.to_datetime` on textual cells,
modelled for ISO `YYYY-MM-DD` inputs with basic range validation. -/
def parseDate (s : String) : Option Date :=
  match (pyStrip s).splitOn "-" with
  | [ys, ms, ds] =>
    match digitsOf ys, digitsOf ms, digitsOf ds with
    | some y, some m, some d =>
      if 1 ≤ m ∧ m ≤ 12 ∧ 1 ≤ d ∧ d ≤ 31 then some ⟨y, m, d⟩ else none
    | _, _, _ => none
  | _ => none

/-- `pd.to_datetime(cell, errors="coerce")` on one cell: `none` is `NaT`. -/
def toDatetime : Cell → Option Date
  | .na => none
  | .date d => some d
  | .str s => parseDate s

/-- `astype(str)` on one cell (pandas renders `NaN` as `"nan"`; the branch is
unreachable after `dropna`). -/
def cellStr : Cell → String
  | .na => "nan"
  | .str s => s
  | .date d => toString d.year ++ "-" ++ pad2 d.month ++ "-" ++ pad2 d.day

/-- The spreadsheet as read by `pd.read_excel`: named columns of cells. -/
structure RawTable where
  cols : List (String × List Cell)

/-- Header normalisation `df.columns.astype(str).str.strip().str.upper()`
(src/app.py line 179). -/
def normName (s : String) : String :=
  pyUpper (pyStrip s)

/-- Column lookup after header normalisation, as used by
`df.loc[:, ["FECHA", "HORA", "TURNO"]]`. -/
def findCol (t : RawTable) (name : String) : Option (List Cell) :=
  (t.cols.find? (fun c => normName c.1 = name)).map (fun c => c.2)

/-- Row-wise zip of the three projected columns. -/
def zip3 : List Cell → List Cell → List Cell → List (Cell × Cell × Cell)
  | a :: as, b :: bs, c :: cs => (a, b, c) :: zip3 as bs cs
  | _, _, _ => []

/-- Embedding of the column projection `df.loc[:, ["FECHA", "HORA", "TURNO"]]`
(src/app.py line 180): a missing column raises `KeyError` for the whole
load. -/
def projectCols (t : RawTable) : Except String (List (Cell × Cell × Cell)) :=
  match findCol t "FECHA", findCol t "HORA", findCol t "TURNO" with
  | some f, some h, some tu => .ok (zip3 f h tu)
  | _, _, _ => .error "KeyError: missing required column"

/-- Embedding of src/app.py lines 182-186: coerce `FECHA` with
`errors="coerce"`, drop rows where `FECHA`, `HORA` or `TURNO` is missing,
then strip the surviving `HORA` and `TURNO` strings. -/
def cleanRows : List (Cell × Cell × Cell) → List (Date × String × String)
  | [] => []
  | (f, h, tu) :: rs =>
    match toDatetime f with
    | none => cleanRows rs
    | some d =>
      if isNa h || isNa tu then cleanRows rs
      else (d, pyStrip (cellStr h), pyStrip (cellStr tu)) :: cleanRows rs

/-- One loaded schedule row: the columns of the final dataframe that the
views consume (`FECHA`, `HORA`, `TURNO`, `HORA_T`, `DT`). -/
structure Entry where
  fecha : Date
  hora : String
  turno : String
  horaT : PyTime
  dt : Nat
deriving DecidableEq

/-- Embedding of src/app.py lines 188-191: `HORA_T = HORA.apply(parse_hora)`
and `DT = combine(FECHA, HORA_T, TZ)`.  `Series.apply` propagates the first
exception, so one bad label fails the whole load. -/
def parsedRows : List (Date × String × String) → Except String (List Entry)
  | [] => .ok []
  | (f, h, tu) :: rs =>
    match parse_hora h with
    | .error e => .error e
    | .ok t =>
      match parsedRows rs with
      | .error e => .error e
      | .ok es => .ok (⟨f, h, tu, t, instant f t⟩ :: es)

/-- Stable insertion by `DT`: the new element goes before the first strictly
later element, hence after every earlier-or-equal one. -/
def insertEntry (e : Entry) : List Entry → List Entry
  | [] => [e]
  | x :: xs => if e.dt ≤ x.dt then e :: x :: xs else x :: insertEntry e xs

/-- One admissible implementation of `df.sort_values("DT")` (src/app.py
line 193), used to execute the pipeline.  Pandas' default
`kind="quicksort"` guarantees only the sorted order, not the relative order
of tied rows, so no theorem may rely on this implementation's tie behaviour;
the guarantees the source actually provides are captured by
`sortValuesAdmissible`. -/
def isort : List Entry → List Entry
  | [] => []
  | e :: es => insertEntry e (isort es)

/-- The contract of `df.sort_values("DT")` with the default
`kind="quicksort"` (numpy introsort, documented as not stable): the result
is some `DT`-sorted permutation of the input rows, with the order of rows
having equal `DT` left unspecified. -/
def sortValuesAdmissible (l l' : List Entry) : Prop :=
  List.Perm l' l ∧ l'.Pairwise (fun a b => a.dt ≤ b.dt)

/-- The loader pipeline before the final sort. -/
def loadedRows (t : RawTable) : Except String (List Entry) :=
  match projectCols t with
  | .error e => .error e
  | .ok rows => parsedRows (cleanRows rows)

/-- Embedding of `cargar_datos` (src/app.py lines 176-194). -/
def cargar_datos (t : RawTable) : Except String (List Entry) :=
  match loadedRows t with
  | .error e => .error e
  | .ok es => .ok (isort es)

/-- Assignee filter (src/app.py lines 236-237): keep rows whose `TURNO`
equals the selector unless it is `"(Todos)"`. -/
def filterTurno (sel : String) (es : List Entry) : List Entry :=
  if sel = "(Todos)" then es else es.filter (fun e => e.turno = sel)

/-- Month filter (src/app.py lines 239-240): keep rows whose `MONTH_LABEL`
equals the selector unless it is `"(Todos)"`. -/
def filterMes (sel : String) (es : List Entry) : List Entry :=
  if sel = "(Todos)" then es else es.filter (fun e => monthLabel e.fecha = sel)

/-- Quick-range filter (src/app.py lines 273-275): when a range is active,
keep rows with `a ≤ DT < b`. -/
def filterRango (r : Option (Nat × Nat)) (es : List Entry) : List Entry :=
  match r with
  | none => es
  | some (a, b) => es.filter (fun e => decide (a ≤ e.dt) && decide (e.dt < b))

/-- Matcher for the fragment of Python regular expressions made of literal
characters and the wildcard dot; this is the pattern language modelled for
`re.search` as invoked by pandas `str.contains`. -/
def rexMatchHere : List Char → List Char → Bool
  | [], _ => true
  | _ :: _, [] => false
  | p :: ps, c :: cs => (p = '.' || p = c) && rexMatchHere ps cs

/-- `re.search`: try the pattern at every start position. -/
def rexSearch (p : List Char) : List Char → Bool
  | [] => rexMatchHere p []
  | c :: cs => rexMatchHere p (c :: cs) || rexSearch p cs

/-- `Series.str.contains(q, case=False, na=False)` on one value: the query is
a regular expression (the pandas default `regex=True`), matched
case-insensitively; case folding is modelled by uppercasing both sides. -/
def pdContains (s q : String) : Bool :=
  rexSearch (pyUpper q).toList (pyUpper s).toList

/-- Free-text search (src/app.py lines 280-288): with a non-empty (already
stripped) query, keep rows where the query matches `TURNO`, `HORA` or
`FECHA_STR`. -/
def quickSearch (q : String) (es : List Entry) : List Entry :=
  if q = "" then es
  else
    es.filter (fun e =>
      pdContains e.turno q || pdContains e.hora q || pdContains (fechaStr e.fecha) q)

/-- The `df_view` pipeline in source order (src/app.py lines 234-288):
assignee, month, quick range, then free-text search. -/
def applyFilters (sel mes : String) (r : Option (Nat × Nat)) (q : String)
    (es : List Entry) : List Entry :=
  quickSearch q (filterRango r (filterMes mes (filterTurno sel es)))

/-- Head stage of the next-turn view (src/app.py lines 298-306) applied to
an already sorted future set: take `iloc[0]` and break the remaining
`timedelta` into `delta.days`, `delta.seconds // 3600` and
`(delta.seconds % 3600) // 60`. -/
def nextTurnOf (srt : List Entry) (now : Nat) : Option (Entry × Nat × Nat × Nat) :=
  match srt with
  | [] => none
  | nxt :: _ =>
    some (nxt, (nxt.dt - now) / 86400, (nxt.dt - now) % 86400 / 3600,
      (nxt.dt - now) % 86400 % 3600 / 60)

/-- The next-turn view (src/app.py lines 295-306) as a relation: filter to
`DT >= now`, sort with `sort_values("DT")` — any `DT`-sorted permutation is
an admissible result of the unstable default sort — and take the head. -/
def nextTurnAdmissible (dfView : List Entry) (now : Nat)
    (out : Option (Entry × Nat × Nat × Nat)) : Prop :=
  ∃ srt, sortValuesAdmissible (dfView.filter (fun e => decide (now ≤ e.dt))) srt ∧
    out = nextTurnOf srt now

/-- Executable instance of the next-turn view, running the pipeline with the
`isort` implementation of `sort_values`. -/
def nextTurn (dfView : List Entry) (now : Nat) : Option (Entry × Nat × Nat × Nat) :=
  nextTurnOf (isort (dfView.filter (fun e => decide (now ≤ e.dt)))) now

/-- The per-event cell line `f"{HORA} · {TURNO}"` of
`render_month_calendar`. -/
def fmtEvent (e : Entry) : String :=
  e.hora ++ " · " ++ e.turno

/-- `events_by_day.setdefault(d, []).append(ev)` on an insertion-ordered
association list. -/
def addEvent (m : List (Nat × List String)) (d : Nat) (ev : String) :
    List (Nat × List String) :=
  match m with
  | [] => [(d, [ev])]
  | (k, evs) :: rest =>
    if k = d then (k, evs ++ [ev]) :: rest
    else (k, evs) :: addEvent rest d ev

/-- The `events_by_day` dictionary of `render_month_calendar` (src/app.py
lines 109-112), built row by row. -/
def buildEventsByDay (dfMonth : List Entry) : List (Nat × List String) :=
  dfMonth.foldl (fun m e => addEvent m e.fecha.day (fmtEvent e)) []

/-- `events_by_day.get(day, [])`. -/
def lookupEvents (m : List (Nat × List String)) (d : Nat) : List String :=
  match m.find? (fun p => p.1 = d) with
  | some p => p.2
  | none => []

/-- A day cell of the calendar grid (src/app.py lines 130-134): the listed
event lines `evs[:2]` and the `len(evs) > 2` ellipsis flag. -/
def dayCell (dfMonth : List Entry) (day : Nat) : List String × Bool :=
  let evs := lookupEvents (buildEventsByDay dfMonth) day
  (evs.take 2, decide (2 < evs.length))

/-- `"<br>".join`. -/
def joinBr : List String → String
  | [] => ""
  | [s] => s
  | s :: rest => s ++ "<br>" ++ joinBr rest

/-- The inner HTML of a non-blank day cell (src/app.py lines 130-137). -/
def cellText (day : Nat) (evs : List String) : String :=
  if evs.isEmpty then "<b>" ++ pad2 day ++ "</b>"
  else
    let lines := joinBr (evs.take 2)
    let lines2 := if 2 < evs.length then lines ++ "<br>…" else lines
    "<b>" ++ pad2 day ++ "</b><br>" ++ lines2

/-- Spec-side helper (refinement comparison only): does the pattern match at
the front of the string, literally? -/
def startsWithChars : List Char → List Char → Bool
  | [], _ => true
  | _ :: _, [] => false
  | q :: qs, c :: cs => q = c && startsWithChars qs cs

/-- Spec-side helper (refinement comparison only): literal occurrence of `q`
anywhere in `s`. -/
def containsSub (q : List Char) : List Char → Bool
  | [] => startsWithChars q []
  | c :: cs => startsWithChars q (c :: cs) || containsSub q cs

/-- Modelled from the spec: the free-text filter clause of section 4.3,
"case-insensitive substring match ... if any of the three contains the query
substring", read as a literal (non-regex) substring test.  Used only to
compare the spec's wording with the source's regex behaviour. -/
def specSubstrCI (q s : String) : Bool :=
  containsSub (pyUpper q).toList (pyUpper s).toList

/-- 12-to-24-hour conversion that `parse_hora` applies in its `AM` branch. -/
def convAM (n : Int) : Int :=
  if n = 12 then 0 else n

/-- 12-to-24-hour conversion that `parse_hora` applies in its `PM` branch. -/
def convPM (n : Int) : Int :=
  if n ≠ 12 then n + 12 else n

/-- Concrete date used by the example schedules. -/
def demoD1 : Date := ⟨2026, 3, 10⟩

/-- Concrete date one day after `demoD1`. -/
def demoD2 : Date := ⟨2026, 3, 11⟩

/-- Example entry: 10 Mar 2026, 7 AM. -/
def demoPast1 : Entry := ⟨demoD1, "7 AM", "LUIS", ⟨7, 0⟩, instant demoD1 ⟨7, 0⟩⟩

/-- Example entry: 10 Mar 2026, 8 AM. -/
def demoPast2 : Entry := ⟨demoD1, "8 AM", "ANA", ⟨8, 0⟩, instant demoD1 ⟨8, 0⟩⟩

/-- Example entry: 11 Mar 2026, 12 PM. -/
def demoFut : Entry := ⟨demoD2, "12 PM", "EVA", ⟨12, 0⟩, instant demoD2 ⟨12, 0⟩⟩

/-- Example schedule with two past entries and one future entry. -/
def demoEntries : List Entry := [demoPast1, demoPast2, demoFut]

/-- Example reference instant: 10 Mar 2026, 09:30, so `demoFut` lies exactly
1 day, 2 hours and 30 minutes ahead. -/
def demoNow : Nat := instant demoD1 ⟨9, 30⟩

/-- Well-formed two-row table with mixed-case, padded headers. -/
def tblGood : RawTable :=
  ⟨[("Fecha ", [.date ⟨2026, 1, 5⟩, .date ⟨2026, 1, 4⟩]),
    ("hora", [.str "8 AM", .str "4 PM"]),
    (" Turno", [.str " Ana ", .str "Luis"])]⟩

/-- Entry loaded from the first row of `tblGood`. -/
def goodE1 : Entry :=
  ⟨⟨2026, 1, 5⟩, "8 AM", "Ana", ⟨8, 0⟩, instant ⟨2026, 1, 5⟩ ⟨8, 0⟩⟩

/-- Entry loaded from the second row of `tblGood`. -/
def goodE2 : Entry :=
  ⟨⟨2026, 1, 4⟩, "4 PM", "Luis", ⟨16, 0⟩, instant ⟨2026, 1, 4⟩ ⟨16, 0⟩⟩

/-- Table whose second row carries the malformed hour label `"8 XM"`. -/
def tblBadHour : RawTable :=
  ⟨[("FECHA", [.date ⟨2026, 1, 5⟩, .date ⟨2026, 1, 6⟩]),
    ("HORA", [.str "8 AM", .str "8 XM"]),
    ("TURNO", [.str "Ana", .str "Luis"])]⟩

/-- Table whose single row has a whitespace-only assignee. -/
def tblWsTurno : RawTable :=
  ⟨[("FECHA", [.date ⟨2026, 1, 5⟩]),
    ("HORA", [.str "8 AM"]),
    ("TURNO", [.str "   "])]⟩

/-- Entry that `cargar_datos` produces for `tblWsTurno`. -/
def wsTurnoE : Entry :=
  ⟨⟨2026, 1, 5⟩, "8 AM", "", ⟨8, 0⟩, instant ⟨2026, 1, 5⟩ ⟨8, 0⟩⟩

/-- Table whose single row has a whitespace-only hour label. -/
def tblWsHora : RawTable :=
  ⟨[("FECHA", [.date ⟨2026, 1, 5⟩]),
    ("HORA", [.str "   "]),
    ("TURNO", [.str "Ana"])]⟩

/-- Table lacking any `HORA` column. -/
def tblMissing : RawTable :=
  ⟨[("FECHA", [.date ⟨2026, 1, 5⟩]),
    ("TURNO", [.str "Ana"])]⟩

/-- Entry used by the free-text filter counterexample. -/
def demoE7 : Entry :=
  ⟨⟨2026, 1, 5⟩, "8 AM", "ANA", ⟨8, 0⟩, instant ⟨2026, 1, 5⟩ ⟨8, 0⟩⟩

/-- First of two entries sharing one instant (11 Mar 2026, 12 PM). -/
def tieA : Entry := ⟨demoD2, "12 PM", "ANA", ⟨12, 0⟩, instant demoD2 ⟨12, 0⟩⟩

/-- Second entry with the same instant as `tieA` but another assignee. -/
def tieB : Entry := ⟨demoD2, "12 PM", "LUIS", ⟨12, 0⟩, instant demoD2 ⟨12, 0⟩⟩

/-- Table whose two rows land on the same instant (a legitimate duplicate
per the data-model invariants). -/
def tblTie : RawTable :=
  ⟨[("FECHA", [.date ⟨2026, 3, 11⟩, .date ⟨2026, 3, 11⟩]),
    ("HORA", [.str "12 PM", .str "12 PM"]),
    ("TURNO", [.str "ANA", .str "LUIS"])]⟩

/-- Unfolding lemma for `parse_hora` with the normalised token list
exposed. -/
theorem parse_hora_eq (label : String) :
    parse_hora label =
      (match pySplit (pyUpper (pyStrip label)) with
      | [p0, p1] =>
        match pyInt p0 with
        | none => .error ("invalid literal for int: " ++ p0)
        | some hour =>
          if p1 = "AM" then mkTime (if hour = 12 then 0 else hour) 0
          else if p1 = "PM" then mkTime (if hour ≠ 12 then hour + 12 else hour) 0
          else .error ("AM/PM no reconocido: " ++ label)
      | _ => .error ("Formato de HORA no soportado: " ++ label)) := rfl

/-- `mkTime` succeeds exactly on 24-hour values. -/
theorem mkTime_ok_iff (v : Int) (m : Nat) :
    (∃ t, mkTime v m = .ok t) ↔ (0 ≤ v ∧ v ≤ 23) := by
  unfold mkTime
  by_cases h : 0 ≤ v ∧ v ≤ 23
  · simp only [if_pos h]
    exact ⟨fun _ => h, fun _ => ⟨_, rfl⟩⟩
  · simp only [if_neg h]
    exact ⟨fun ⟨t, ht⟩ => absurd ht (by simp), fun hc => absurd hc h⟩

/-- Inserting an element permutes consing it. -/
theorem insertEntry_perm (e : Entry) : ∀ l : List Entry, List.Perm (insertEntry e l) (e :: l)
  | [] => List.Perm.refl _
  | x :: xs => by
    unfold insertEntry
    split
    · exact List.Perm.refl _
    · exact ((insertEntry_perm e xs).cons x).trans (List.Perm.swap e x xs)

/-- Insertion into a `dt`-sorted list keeps it sorted. -/
theorem insertEntry_pairwise {e : Entry} {l : List Entry}
    (h : l.Pairwise (fun a b => a.dt ≤ b.dt)) :
    (insertEntry e l).Pairwise (fun a b => a.dt ≤ b.dt) := by
  induction l with
  | nil => simp [insertEntry]
  | cons x xs ih =>
    rw [List.pairwise_cons] at h
    obtain ⟨hx, hxs⟩ := h
    rw [insertEntry]
    split
    case isTrue hle =>
      rw [List.pairwise_cons]
      refine ⟨?_, List.pairwise_cons.mpr ⟨hx, hxs⟩⟩
      intro y hy
      rcases List.mem_cons.mp hy with rfl | hy'
      · exact hle
      · exact le_trans hle (hx y hy')
    case isFalse hgt =>
      rw [List.pairwise_cons]
      refine ⟨?_, ih hxs⟩
      intro y hy
      rcases List.mem_cons.mp ((insertEntry_perm e xs).mem_iff.mp hy) with rfl | hy'
      · omega
      · exact hx y hy'

/-- The sorted output is a permutation of the input. -/
theorem isort_perm : ∀ l : List Entry, List.Perm (isort l) l
  | [] => List.Perm.refl _
  | e :: es => (insertEntry_perm e (isort es)).trans ((isort_perm es).cons e)

/-- The sorted output is non-decreasing in `dt`. -/
theorem isort_pairwise (l : List Entry) :
    (isort l).Pairwise (fun a b => a.dt ≤ b.dt) := by
  induction l with
  | nil => exact List.Pairwise.nil
  | cons e es ih => exact insertEntry_pairwise ih

/-- A bad hour label inside the surviving rows makes `parsedRows` fail as a
whole, like `Series.apply` propagating the exception. -/
theorem parsedRows_error_of_mem {rs : List (Date × String × String)}
    {r : Date × String × String} (hr : r ∈ rs) {msg : String}
    (he : parse_hora r.2.1 = .error msg) :
    ∃ m, parsedRows rs = .error m := by
  induction rs with
  | nil => cases hr
  | cons x xs ih =>
    obtain ⟨f, hh, tu⟩ := x
    rcases List.mem_cons.mp hr with rfl | hr'
    · rw [parsedRows]
      rw [he]
      exact ⟨msg, rfl⟩
    · rw [parsedRows]
      cases hph : parse_hora hh with
      | error m => exact ⟨m, rfl⟩
      | ok t =>
        obtain ⟨m, hm⟩ := ih hr'
        rw [hm]
        exact ⟨m, rfl⟩

/-- A failing projection fails the whole load. -/
theorem cargar_error_of_project {t : RawTable} {m : String}
    (h : projectCols t = .error m) : cargar_datos t = .error m := by
  unfold cargar_datos loadedRows
  rw [h]

/-- Dot-free patterns match like literal prefixes. -/
theorem rexMatchHere_eq_startsWith (p : List Char) (hp : ∀ c ∈ p, c ≠ '.') :
    ∀ s, rexMatchHere p s = startsWithChars p s := by
  induction p with
  | nil => intro s; cases s <;> rfl
  | cons q qs ih =>
    intro s
    cases s with
    | nil => rfl
    | cons c cs =>
      have hq : q ≠ '.' := hp q (List.mem_cons_self _ _)
      rw [rexMatchHere, startsWithChars,
        ih (fun c hc => hp c (List.mem_cons_of_mem _ hc)) cs]
      simp [hq]

/-- Dot-free patterns search like literal substrings. -/
theorem rexSearch_eq_containsSub (p : List Char) (hp : ∀ c ∈ p, c ≠ '.') :
    ∀ s, rexSearch p s = containsSub p s := by
  intro s
  induction s with
  | nil => rw [rexSearch, containsSub, rexMatchHere_eq_startsWith p hp]
  | cons c cs ih =>
    rw [rexSearch, containsSub, rexMatchHere_eq_startsWith p hp, ih]

/-- Filtering twice with one predicate equals filtering once. -/
theorem filterB_idem (p : Entry → Bool) (l : List Entry) :
    (l.filter p).filter p = l.filter p := by
  induction l with
  | nil => rfl
  | cons x xs ih => by_cases hx : p x <;> simp [List.filter_cons, hx, ih]

/-- Two filters commute. -/
theorem filterB_comm (p q : Entry → Bool) (l : List Entry) :
    (l.filter p).filter q = (l.filter q).filter p := by
  induction l with
  | nil => rfl
  | cons x xs ih =>
    by_cases hp : p x <;> by_cases hq : q x <;>
      simp [List.filter_cons, hp, hq, ih]

/-- The assignee filter as a single predicate filter. -/
theorem filterTurno_eq (sel : String) (es : List Entry) :
    filterTurno sel es =
      es.filter (fun e => decide (sel = "(Todos)") || decide (e.turno = sel)) := by
  unfold filterTurno
  by_cases h : sel = "(Todos)" <;> simp [h]

/-- The month filter as a single predicate filter. -/
theorem filterMes_eq (sel : String) (es : List Entry) :
    filterMes sel es =
      es.filter (fun e =>
        decide (sel = "(Todos)") || decide (monthLabel e.fecha = sel)) := by
  unfold filterMes
  by_cases h : sel = "(Todos)" <;> simp [h]

/-- The quick-range filter as a single predicate filter. -/
theorem filterRango_eq (r : Option (Nat × Nat)) (es : List Entry) :
    filterRango r es =
      es.filter (fun e =>
        match r with
        | none => true
        | some (a, b) => decide (a ≤ e.dt) && decide (e.dt < b)) := by
  match r with
  | none => simp [filterRango]
  | some (a, b) => rfl

/-- The free-text filter as a single predicate filter. -/
theorem quickSearch_eq (q : String) (es : List Entry) :
    quickSearch q es =
      es.filter (fun e =>
        decide (q = "") ||
          (pdContains e.turno q || pdContains e.hora q ||
            pdContains (fechaStr e.fecha) q)) := by
  unfold quickSearch
  by_cases h : q = "" <;> simp [h]

/-- Looking an event up after one `setdefault`-append. -/
theorem lookupEvents_addEvent (m : List (Nat × List String)) (d k : Nat) (ev : String) :
    lookupEvents (addEvent m k ev) d =
      if k = d then lookupEvents m d ++ [ev] else lookupEvents m d := by
  induction m with
  | nil =>
    rw [addEvent]
    by_cases hk : k = d <;> simp [lookupEvents, List.find?_cons, hk]
  | cons p rest ih =>
    obtain ⟨k0, evs⟩ := p
    rw [addEvent]
    by_cases hk0 : k0 = k
    · subst hk0
      simp only [if_pos rfl]
      by_cases hd : k0 = d <;> simp [lookupEvents, List.find?_cons, hd]
    · rw [if_neg hk0]
      by_cases hd : k0 = d
      · subst hd
        have hk : ¬ k = k0 := fun h => hk0 h.symm
        simp [lookupEvents, List.find?_cons, hk]
      · simp [lookupEvents, List.find?_cons, hd] at ih ⊢
        exact ih

/-- The events dictionary built by the calendar loop holds, per day, exactly
the formatted events of that day in row order. -/
theorem lookupEvents_build_general (l : List Entry) (m : List (Nat × List String)) (d : Nat) :
    lookupEvents (l.foldl (fun acc e => addEvent acc e.fecha.day (fmtEvent e)) m) d =
      lookupEvents m d ++ (l.filter (fun e => decide (e.fecha.day = d))).map fmtEvent := by
  induction l generalizing m with
  | nil => simp
  | cons e es ih =>
    rw [List.foldl_cons, ih, lookupEvents_addEvent, List.filter_cons]
    by_cases hd : e.fecha.day = d <;> simp [hd]

/-- Unfolding `parse_hora` once the token list is known to have two
elements. -/
theorem parse_hora_two_tokens (label p0 p1 : String)
    (hsplit : pySplit (pyUpper (pyStrip label)) = [p0, p1]) :
    parse_hora label =
      (match pyInt p0 with
      | none => .error ("invalid literal for int: " ++ p0)
      | some hour =>
        if p1 = "AM" then mkTime (if hour = 12 then 0 else hour) 0
        else if p1 = "PM" then mkTime (if hour ≠ 12 then hour + 12 else hour) 0
        else .error ("AM/PM no reconocido: " ++ label)) := by
  rw [parse_hora_eq, hsplit]

/-- A conjunction of predicates filters like the two filters in sequence. -/
theorem filter_and (p q : Entry → Bool) (l : List Entry) :
    l.filter (fun e => p e && q e) = (l.filter p).filter q := by
  induction l with
  | nil => rfl
  | cons x xs ih =>
    by_cases hp : p x <;> by_cases hq : q x <;>
      simp [List.filter_cons, hp, hq, ih]

/-- The executable next-turn view is one admissible behaviour of the
source's sort-then-head computation. -/
theorem nextTurn_admissible (es : List Entry) (now : Nat) :
    nextTurnAdmissible es now (nextTurn es now) :=
  ⟨isort (es.filter (fun e => decide (now ≤ e.dt))),
   ⟨isort_perm _, isort_pairwise _⟩, rfl⟩

/-- C1: when the label, stripped and uppercased, splits into exactly two
tokens — an integer hour 1–12 and a meridiem AM or PM — `parse_hora` returns
the 24-hour time with minute 0 given by the table (12 AM → 0, 1–11 AM
unchanged, 12 PM → 12, 1–11 PM → hour + 12); and with a token count other
than 2, a non-integer hour token, or an unknown meridiem token, it fails
with an error. -/
theorem C1_parse_hora_table (label : String) :
    (∀ hTok mTok : String, ∀ n : Int,
      pySplit (pyUpper (pyStrip label)) = [hTok, mTok] →
      pyInt hTok = some n →
      ((mTok = "AM" → n = 12 → parse_hora label = .ok ⟨0, 0⟩) ∧
       (mTok = "AM" → 1 ≤ n → n ≤ 11 → parse_hora label = .ok ⟨n.toNat, 0⟩) ∧
       (mTok = "PM" → n = 12 → parse_hora label = .ok ⟨12, 0⟩) ∧
       (mTok = "PM" → 1 ≤ n → n ≤ 11 →
         parse_hora label = .ok ⟨n.toNat + 12, 0⟩))) ∧
    ((pySplit (pyUpper (pyStrip label))).length ≠ 2 →
      ∃ msg, parse_hora label = .error msg) ∧
    (∀ hTok mTok : String,
      pySplit (pyUpper (pyStrip label)) = [hTok, mTok] →
      pyInt hTok = none → ∃ msg, parse_hora label = .error msg) ∧
    (∀ hTok mTok : String, ∀ n : Int,
      pySplit (pyUpper (pyStrip label)) = [hTok, mTok] →
      pyInt hTok = some n → mTok ≠ "AM" → mTok ≠ "PM" →
      ∃ msg, parse_hora label = .error msg) := by
  refine ⟨?_, ?_, ?_, ?_⟩
  · intro hTok mTok n hsplit hint
    refine ⟨?_, ?_, ?_, ?_⟩
    · rintro rfl rfl
      rw [parse_hora_two_tokens label hTok "AM" hsplit, hint]
      rfl
    · rintro rfl h1 h11
      rw [parse_hora_two_tokens label hTok "AM" hsplit, hint]
      show (if ("AM" : String) = "AM" then _ else _) = _
      rw [if_pos rfl, if_neg (by omega : ¬ n = 12)]
      unfold mkTime
      rw [if_pos (by omega : (0 : Int) ≤ n ∧ n ≤ 23)]
    · rintro rfl rfl
      rw [parse_hora_two_tokens label hTok "PM" hsplit, hint]
      rfl
    · rintro rfl h1 h11
      rw [parse_hora_two_tokens label hTok "PM" hsplit, hint]
      show (if ("PM" : String) = "AM" then _ else _) = _
      rw [if_neg (by decide : ¬ ("PM" : String) = "AM"),
        if_pos rfl, if_pos (by omega : n ≠ 12)]
      unfold mkTime
      rw [if_pos (by omega : (0 : Int) ≤ n + 12 ∧ n + 12 ≤ 23)]
      have hco : (n + 12).toNat = n.toNat + 12 := by omega
      rw [hco]
  · intro hlen
    cases hsp : pySplit (pyUpper (pyStrip label)) with
    | nil => exact ⟨_, by rw [parse_hora_eq, hsp]⟩
    | cons a t1 =>
      cases t1 with
      | nil => exact ⟨_, by rw [parse_hora_eq, hsp]⟩
      | cons b t2 =>
        cases t2 with
        | nil => rw [hsp] at hlen; simp at hlen
        | cons c t3 => exact ⟨_, by rw [parse_hora_eq, hsp]⟩
  · intro hTok mTok hsplit hint
    rw [parse_hora_two_tokens label hTok mTok hsplit, hint]
    exact ⟨_, rfl⟩
  · intro hTok mTok n hsplit hint hA hP
    rw [parse_hora_two_tokens label hTok mTok hsplit, hint]
    show ∃ msg, (if mTok = "AM" then _ else _) = Except.error msg
    rw [if_neg hA, if_neg hP]
    exact ⟨_, rfl⟩

/-- Witness for C1: the padded, lowercase label " 12 am " normalises to the
two tokens "12" and "AM" and parses to 00:00. -/
theorem C1_parse_hora_table_witness :
    pySplit (pyUpper (pyStrip " 12 am ")) = ["12", "AM"] ∧
    pyInt "12" = some 12 ∧
    parse_hora " 12 am " = .ok ⟨0, 0⟩ :=
  ⟨rfl, rfl, (((C1_parse_hora_table " 12 am ").1 "12" "AM" 12 rfl rfl).1) rfl rfl⟩

/-- C6 counterexample: `parse_hora "13 AM"` does not fail — it returns
13:00. -/
theorem C6_cex : parse_hora "13 AM" = .ok ⟨13, 0⟩ := rfl

/-- C6 amended: with two tokens, an integer hour token and a valid meridiem,
`parse_hora` succeeds exactly when the converted 24-hour value lies in 0–23;
hours outside 1–12 are therefore not uniformly rejected ("13 AM" succeeds as
13:00) and fail only through the `time` range check (as "13 PM" does). -/
theorem C6_out_of_range_hour (label hTok mTok : String) (n : Int)
    (hsplit : pySplit (pyUpper (pyStrip label)) = [hTok, mTok])
    (hint : pyInt hTok = some n) :
    (mTok = "AM" →
      ((∃ t, parse_hora label = .ok t) ↔ (0 ≤ convAM n ∧ convAM n ≤ 23))) ∧
    (mTok = "PM" →
      ((∃ t, parse_hora label = .ok t) ↔ (0 ≤ convPM n ∧ convPM n ≤ 23))) := by
  constructor
  · rintro rfl
    rw [parse_hora_two_tokens label hTok "AM" hsplit, hint]
    show (∃ t, (if ("AM" : String) = "AM" then _ else _) = Except.ok t) ↔ _
    rw [if_pos rfl]
    exact mkTime_ok_iff (convAM n) 0
  · rintro rfl
    rw [parse_hora_two_tokens label hTok "PM" hsplit, hint]
    show (∃ t, (if ("PM" : String) = "AM" then _ else _) = Except.ok t) ↔ _
    rw [if_neg (by decide : ¬ ("PM" : String) = "AM"), if_pos rfl]
    exact mkTime_ok_iff (convPM n) 0

/-- Witness for the amended C6 at the label "13 PM": the converted value 25
is out of range, so the parse cannot succeed. -/
theorem C6_out_of_range_hour_witness :
    (∃ t, parse_hora "13 PM" = .ok t) ↔ (0 ≤ convPM 13 ∧ convPM 13 ≤ 23) :=
  (C6_out_of_range_hour "13 PM" "13" "PM" 13 rfl rfl).2 rfl

/-- C2 counterexample: with two tied future entries in original order
`[tieA, tieB]`, the admissible sort output `[tieB, tieA]` makes the view
select `tieB` — not the first-in-order tied entry `tieA` — so the claimed
"ties broken by the original stable order" is not guaranteed by the
program's unstable default sort. -/
theorem C2_cex :
    nextTurnAdmissible [tieA, tieB] demoNow (some (tieB, 1, 2, 30)) ∧
    tieB ≠ tieA ∧ tieA.dt = tieB.dt ∧ demoNow ≤ tieA.dt ∧
    List.head? [tieA, tieB] = some tieA :=
  ⟨⟨[tieB, tieA], ⟨List.Perm.swap tieA tieB [], by decide⟩, rfl⟩,
   by decide, rfl, by decide, rfl⟩

/-- C2 amended: for every admissible result of the unstable sort, the view
is empty exactly when no entry lies at or after `now`; otherwise it selects
an entry of minimal instant among those with `instant ≥ now` — which of
several tied entries is unspecified — and reports the remaining duration as
whole days, hours in 0–23 and minutes in 0–59, by truncating division. -/
theorem C2_next_minimal (es : List Entry) (now : Nat)
    (out : Option (Entry × Nat × Nat × Nat))
    (h : nextTurnAdmissible es now out) :
    (out = none ↔ ∀ e ∈ es, e.dt < now) ∧
    (∀ nxt D H M, out = some (nxt, D, H, M) →
      nxt ∈ es ∧ now ≤ nxt.dt ∧
      (∀ e ∈ es, now ≤ e.dt → nxt.dt ≤ e.dt) ∧
      D = (nxt.dt - now) / 86400 ∧
      H = (nxt.dt - now) % 86400 / 3600 ∧
      M = (nxt.dt - now) % 86400 % 3600 / 60 ∧
      H < 24 ∧ M < 60 ∧
      86400 * D + 3600 * H + 60 * M ≤ nxt.dt - now ∧
      nxt.dt - now < 86400 * D + 3600 * H + 60 * (M + 1)) := by
  obtain ⟨srt, ⟨hperm, hsort⟩, rfl⟩ := h
  constructor
  · constructor
    · intro hn e he
      by_contra hge
      push_neg at hge
      have hmem : e ∈ es.filter (fun e => decide (now ≤ e.dt)) :=
        List.mem_filter.mpr ⟨he, by simpa using hge⟩
      cases hs : srt with
      | nil =>
        rw [hs] at hperm
        have hnil : es.filter (fun e => decide (now ≤ e.dt)) = [] :=
          hperm.symm.eq_nil
        rw [hnil] at hmem
        cases hmem
      | cons n0 rest =>
        rw [hs] at hn
        cases hn
    · intro hall
      have hfut : es.filter (fun e => decide (now ≤ e.dt)) = [] := by
        apply List.filter_eq_nil_iff.mpr
        intro e he
        have := hall e he
        simp only [decide_eq_true_eq]
        omega
      rw [hfut] at hperm
      rw [hperm.eq_nil]
      rfl
  · intro nxt D H M hsome
    cases hs : srt with
    | nil =>
      rw [hs] at hsome
      cases hsome
    | cons n0 rest =>
      rw [hs] at hsome
      simp only [nextTurnOf, Option.some.injEq, Prod.mk.injEq] at hsome
      obtain ⟨rfl, rfl, rfl, rfl⟩ := hsome
      rw [hs] at hperm hsort
      have hmemFut : n0 ∈ es.filter (fun e => decide (now ≤ e.dt)) :=
        hperm.mem_iff.mp (List.mem_cons_self _ _)
      have hn0es : n0 ∈ es := List.mem_of_mem_filter hmemFut
      have hn0now : now ≤ n0.dt := by
        have := List.of_mem_filter hmemFut
        simpa using this
      refine ⟨hn0es, hn0now, ?_, rfl, rfl, rfl, by omega, by omega,
        by omega, by omega⟩
      intro e he hnow
      have hefut : e ∈ es.filter (fun e => decide (now ≤ e.dt)) :=
        List.mem_filter.mpr ⟨he, by simpa using hnow⟩
      have hesrt : e ∈ n0 :: rest := hperm.mem_iff.mpr hefut
      rcases List.mem_cons.mp hesrt with rfl | hrest
      · exact le_refl _
      · exact (List.pairwise_cons.mp hsort).1 e hrest

/-- Witness for the amended C2 at the example schedule: under the executable
admissible sort, the single future entry lies 1 day, 2 hours and 30 minutes
after the reference instant. -/
theorem C2_next_minimal_witness :
    demoFut ∈ demoEntries ∧ demoNow ≤ demoFut.dt ∧
    (∀ e ∈ demoEntries, demoNow ≤ e.dt → demoFut.dt ≤ e.dt) ∧
    (1 : Nat) = (demoFut.dt - demoNow) / 86400 ∧
    (2 : Nat) = (demoFut.dt - demoNow) % 86400 / 3600 ∧
    (30 : Nat) = (demoFut.dt - demoNow) % 86400 % 3600 / 60 ∧
    (2 : Nat) < 24 ∧ (30 : Nat) < 60 ∧
    86400 * 1 + 3600 * 2 + 60 * 30 ≤ demoFut.dt - demoNow ∧
    demoFut.dt - demoNow < 86400 * 1 + 3600 * 2 + 60 * (30 + 1) :=
  (C2_next_minimal demoEntries demoNow (some (demoFut, 1, 2, 30))
    ⟨isort (demoEntries.filter (fun e => decide (demoNow ≤ e.dt))),
     ⟨isort_perm _, isort_pairwise _⟩, rfl⟩).2 demoFut 1 2 30 rfl

/-- C3 counterexample: a table whose second row carries the malformed hour
label "8 XM" makes the whole load fail instead of dropping that row and
returning the remaining well-formed row; the same rows without the malformed
one load fine. -/
theorem C3_cex :
    cargar_datos tblBadHour = .error "AM/PM no reconocido: 8 XM" ∧
    cargar_datos tblGood = .ok [goodE2, goodE1] :=
  ⟨rfl, rfl⟩

/-- C3 amended: a row whose hour label fails to parse is never dropped
individually — its presence among the surviving rows fails the whole load
with an error. -/
theorem C3_bad_hour_fails_load (t : RawTable)
    (rows : List (Cell × Cell × Cell)) (r : Date × String × String)
    (hproj : projectCols t = .ok rows)
    (hmem : r ∈ cleanRows rows)
    (hbad : ∀ tm, parse_hora r.2.1 ≠ .ok tm) :
    ∃ msg, cargar_datos t = .error msg := by
  have herr : ∃ m, parse_hora r.2.1 = .error m := by
    cases hp : parse_hora r.2.1 with
    | ok tm => exact absurd hp (hbad tm)
    | error m => exact ⟨m, rfl⟩
  obtain ⟨m, hm⟩ := herr
  obtain ⟨m2, hm2⟩ := parsedRows_error_of_mem hmem hm
  refine ⟨m2, ?_⟩
  unfold cargar_datos loadedRows
  rw [hproj]
  show (match parsedRows (cleanRows rows) with
    | Except.error e => Except.error e
    | Except.ok es => Except.ok (isort es)) = Except.error m2
  rw [hm2]

/-- Witness for the amended C3 at `tblBadHour`, whose second surviving row
has the unparseable hour label "8 XM". -/
theorem C3_bad_hour_fails_load_witness :
    ∃ msg, cargar_datos tblBadHour = .error msg :=
  C3_bad_hour_fails_load tblBadHour
    [(.date ⟨2026, 1, 5⟩, .str "8 AM", .str "Ana"),
     (.date ⟨2026, 1, 6⟩, .str "8 XM", .str "Luis")]
    (⟨2026, 1, 6⟩, "8 XM", "Luis") rfl (by decide)
    (fun tm htm => Except.noConfusion
      ((rfl :
        parse_hora "8 XM" = Except.error "AM/PM no reconocido: 8 XM") ▸ htm))

/-- C4 counterexample: the two rows of `tblTie` share one instant and
survive loading in the order `[tieA, tieB]`, yet `[tieB, tieA]` is an
admissible output of the program's unstable `sort_values` — equal-instant
entries in the loaded sequence need not appear in their original row order,
so the claimed stability is not guaranteed. -/
theorem C4_cex :
    loadedRows tblTie = .ok [tieA, tieB] ∧
    tieA ≠ tieB ∧ tieA.dt = tieB.dt ∧
    sortValuesAdmissible [tieA, tieB] [tieB, tieA] :=
  ⟨rfl, by decide, rfl, List.Perm.swap tieA tieB [], by decide⟩

/-- C4 amended: every successfully loaded sequence is an admissible
`sort_values` result of the pre-sort rows: a permutation of them that is
sorted non-decreasing by instant, with the relative order of equal-instant
entries unspecified. -/
theorem C4_sorted_unspecified_ties (t : RawTable) (es rs : List Entry)
    (h : cargar_datos t = .ok es) (hrs : loadedRows t = .ok rs) :
    sortValuesAdmissible rs es := by
  unfold cargar_datos at h
  cases hl : loadedRows t with
  | error m => rw [hl] at h; cases h
  | ok rs0 =>
    rw [hl] at h
    have hes : es = isort rs0 := by
      injection h with h2
      exact h2.symm
    have hr : rs = rs0 := by
      rw [hl] at hrs
      injection hrs with h3
      exact h3.symm
    subst hes
    subst hr
    exact ⟨isort_perm rs, isort_pairwise rs⟩

/-- Witness for the amended C4 at `tblGood`: the loaded sequence is a sorted
permutation of the two surviving rows. -/
theorem C4_sorted_unspecified_ties_witness :
    sortValuesAdmissible [goodE1, goodE2] [goodE2, goodE1] :=
  C4_sorted_unspecified_ties tblGood [goodE2, goodE1] [goodE1, goodE2] rfl rfl

/-- C5 counterexample: a row whose assignee cell is whitespace-only is not
excluded — it loads with an empty assignee — and a row whose hour label is
whitespace-only is not dropped either: it fails the whole load. -/
theorem C5_cex :
    cargar_datos tblWsTurno = .ok [wsTurnoE] ∧
    wsTurnoE.turno = "" ∧
    cargar_datos tblWsHora = .error "Formato de HORA no soportado: " :=
  ⟨rfl, rfl, rfl⟩

/-- C5 amended: the cleaning stage excludes a row exactly when its date
fails to coerce or its hour or assignee cell is missing (`NaN`); trimming is
applied only to the surviving rows, which are kept in order with stripped
hour and assignee fields. -/
theorem C5_excluded_iff (rows : List (Cell × Cell × Cell)) :
    cleanRows rows =
      (rows.filter (fun r =>
        (toDatetime r.1).isSome && !isNa r.2.1 && !isNa r.2.2)).map
        (fun r => ((toDatetime r.1).getD ⟨0, 1, 1⟩,
          pyStrip (cellStr r.2.1), pyStrip (cellStr r.2.2))) := by
  induction rows with
  | nil => rfl
  | cons r rs ih =>
    obtain ⟨f, h, tu⟩ := r
    rw [cleanRows]
    cases hf : toDatetime f with
    | none => simp [List.filter_cons, hf, ih]
    | some d =>
      by_cases hh : isNa h
      · simp [List.filter_cons, hf, hh, ih]
      · by_cases ht : isNa tu
        · simp [List.filter_cons, hf, hh, ht, ih]
        · simp [List.filter_cons, hf, hh, ht, ih]

/-- C7 counterexample: the query is interpreted as a regular expression (the
pandas `str.contains` default), not a literal substring — the query "." keeps
an entry although none of its three display fields contains a literal dot. -/
theorem C7_cex :
    quickSearch "." [demoE7] = [demoE7] ∧
    specSubstrCI "." demoE7.turno = false ∧
    specSubstrCI "." demoE7.hora = false ∧
    specSubstrCI "." (fechaStr demoE7.fecha) = false :=
  ⟨rfl, rfl, rfl, rfl⟩

/-- C7 amended: the empty query keeps every entry, and a query free of regex
metacharacters (no dot, the metacharacter of the modelled pattern fragment)
keeps exactly the entries with a case-insensitive literal occurrence in the
assignee, the hour label, or the dd/mm/yy date. -/
theorem C7_literal_query (q : String) (es : List Entry) :
    (q = "" → quickSearch q es = es) ∧
    ((pyUpper q).toList.all (fun c => decide (c ≠ '.')) = true →
      quickSearch q es =
        es.filter (fun e =>
          decide (q = "") || (specSubstrCI q e.turno || specSubstrCI q e.hora ||
            specSubstrCI q (fechaStr e.fecha)))) := by
  constructor
  · rintro rfl
    rw [quickSearch]
    simp
  · intro hnd
    have hp : ∀ c ∈ (pyUpper q).toList, c ≠ '.' := by
      intro c hc
      have := List.all_eq_true.mp hnd c hc
      simpa using this
    rw [quickSearch_eq]
    apply List.filter_congr
    intro e _
    have hc : ∀ s : String, pdContains s q = specSubstrCI q s := by
      intro s
      unfold pdContains specSubstrCI
      rw [rexSearch_eq_containsSub (pyUpper q).toList hp]
    rw [hc e.turno, hc e.hora, hc (fechaStr e.fecha)]

/-- Witness for the amended C7: the dot-free query "AN" filters the example
entry by literal substring match. -/
theorem C7_literal_query_witness :
    quickSearch "AN" [demoE7] =
      List.filter (fun e =>
        decide (("AN" : String) = "") ||
          (specSubstrCI "AN" e.turno || specSubstrCI "AN" e.hora ||
            specSubstrCI "AN" (fechaStr e.fecha))) [demoE7] :=
  (C7_literal_query "AN" [demoE7]).2 rfl

/-- C8: for a fixed selector state, each of the four filters is idempotent
and every pair of them commutes, so any application order yields the same
set; in particular the pipeline equals its fully reversed composition. -/
theorem C8_filters_commute (sel mes : String) (r : Option (Nat × Nat))
    (q : String) (es : List Entry) :
    (filterTurno sel (filterTurno sel es) = filterTurno sel es) ∧
    (filterMes mes (filterMes mes es) = filterMes mes es) ∧
    (filterRango r (filterRango r es) = filterRango r es) ∧
    (quickSearch q (quickSearch q es) = quickSearch q es) ∧
    (filterMes mes (filterTurno sel es) = filterTurno sel (filterMes mes es)) ∧
    (filterRango r (filterTurno sel es) = filterTurno sel (filterRango r es)) ∧
    (quickSearch q (filterTurno sel es) = filterTurno sel (quickSearch q es)) ∧
    (filterRango r (filterMes mes es) = filterMes mes (filterRango r es)) ∧
    (quickSearch q (filterMes mes es) = filterMes mes (quickSearch q es)) ∧
    (quickSearch q (filterRango r es) = filterRango r (quickSearch q es)) ∧
    (applyFilters sel mes r q es =
      filterTurno sel (filterMes mes (filterRango r (quickSearch q es)))) := by
  simp only [applyFilters, filterTurno_eq, filterMes_eq, filterRango_eq,
    quickSearch_eq]
  refine ⟨filterB_idem _ _, filterB_idem _ _, filterB_idem _ _,
    filterB_idem _ _, filterB_comm _ _ _, filterB_comm _ _ _,
    filterB_comm _ _ _, filterB_comm _ _ _, filterB_comm _ _ _,
    filterB_comm _ _ _, ?_⟩
  rw [← filter_and, ← filter_and, ← filter_and, ← filter_and, ← filter_and,
    ← filter_and]
  apply List.filter_congr
  intro e _
  cases decide (sel = "(Todos)") <;>
    cases decide (mes = "(Todos)") <;>
      cases decide (q = "") <;> simp [Bool.and_comm, Bool.and_left_comm,
        Bool.and_assoc]

/-- C9: the events dictionary holds, per day, exactly the formatted turns of
that day in row order, and a day cell with `k` turns lists exactly
`min k 2` of them (the first two, formatted "hour · assignee") and carries
the ellipsis marker exactly when `k > 2`. -/
theorem C9_day_cell (dfMonth : List Entry) (day : Nat) :
    lookupEvents (buildEventsByDay dfMonth) day =
      (dfMonth.filter (fun e => decide (e.fecha.day = day))).map fmtEvent ∧
    (dayCell dfMonth day).1 =
      ((dfMonth.filter (fun e => decide (e.fecha.day = day))).map
        fmtEvent).take 2 ∧
    (dayCell dfMonth day).1.length =
      min ((dfMonth.filter (fun e => decide (e.fecha.day = day))).length) 2 ∧
    ((dayCell dfMonth day).2 = true ↔
      2 < (dfMonth.filter (fun e => decide (e.fecha.day = day))).length) := by
  have hkey : lookupEvents (buildEventsByDay dfMonth) day =
      (dfMonth.filter (fun e => decide (e.fecha.day = day))).map fmtEvent := by
    have hg := lookupEvents_build_general dfMonth [] day
    rw [buildEventsByDay]
    rw [hg]
    rfl
  refine ⟨hkey, ?_, ?_, ?_⟩
  · rw [dayCell]
    rw [hkey]
  · rw [dayCell]
    rw [hkey]
    rw [List.length_take, List.length_map]
    exact Nat.min_comm _ _
  · rw [dayCell]
    rw [hkey]
    simp [List.length_map]

/-- C10: a table lacking any of the columns FECHA, HORA, TURNO after header
normalisation makes the whole load fail with an error — it never yields a
partial or empty schedule. -/
theorem C10_missing_column (t : RawTable)
    (h : (∀ c ∈ t.cols, normName c.1 ≠ "FECHA") ∨
         (∀ c ∈ t.cols, normName c.1 ≠ "HORA") ∨
         (∀ c ∈ t.cols, normName c.1 ≠ "TURNO")) :
    ∃ msg, cargar_datos t = .error msg := by
  refine ⟨"KeyError: missing required column", ?_⟩
  apply cargar_error_of_project
  unfold projectCols
  have hnone : ∀ name : String, (∀ c ∈ t.cols, normName c.1 ≠ name) →
      findCol t name = none := by
    intro name hname
    unfold findCol
    rw [List.find?_eq_none.mpr]
    · rfl
    · intro c hc
      simpa using hname c hc
  rcases h with h | h | h
  · rw [hnone "FECHA" h]
  · rw [hnone "HORA" h]
    cases findCol t "FECHA" <;> cases findCol t "TURNO" <;> rfl
  · rw [hnone "TURNO" h]
    cases findCol t "FECHA" <;> cases findCol t "HORA" <;> rfl

/-- Witness for C10 at `tblMissing`, which has no HORA column. -/
theorem C10_missing_column_witness :
    ∃ msg, cargar_datos tblMissing = .error msg :=
  C10_missing_column tblMissing (Or.inr (Or.inl (by decide)))

end Turnos
